import Mathlib

/-!
Shallow embedding of the `kelindar/timeline` scheduler (the version in
`timeline.go` with `tick`/`span` arithmetic, admission control and a
`pending` execution buffer), together with theorems checking the
natural-language specification against it.

Modelling conventions:
* Go `tick` is `int64`; we model it as `Int` (no claim exercises 64-bit
  overflow).
* Go `span` is `uint32`; we model span values as `Nat`, and every Go
  conversion `span(x)` from a signed value is modelled explicitly as
  reduction modulo `2^32` (`spanOfTick`), which is what Go's
  `uint32(int64)` conversion computes.
* Wall-clock times (`time.Time`) and durations (`time.Duration`) are
  modelled by their nanosecond count as `Int`; Go's integer division of
  `int64` truncates toward zero, modelled by `Int.tdiv`.
* Tasks are identified by a `Nat` id; the behaviour of the Go closure is
  supplied by an environment `env : Nat → Int → Int → Bool` giving the
  boolean returned by task `t` when invoked with a wall time and an
  elapsed duration (both in nanoseconds), exactly the two arguments the
  scheduler passes.
* `Tick` additionally returns the trace of task invocations it performed
  (task id, the `now` and `elapsed` arguments passed, and the returned
  boolean), so that "the task fires" is observable.
* The mutex/atomic operations serialise accesses; we model the sequential
  semantics (the claims under verification are about sequential runs).
* `Scheduler.alignedAt` performs `current % interval` on `int64`, which
  panics in Go when `interval = 0`; the model returns `Option Int` with
  `none` for the panic.
-/

namespace Timeline

/-- `resolution = 10 * time.Millisecond`, in nanoseconds. -/
def resolution : Int := 10000000

/-- `numBuckets = int(1 * time.Second / resolution)` = 100. -/
def numBuckets : Nat := 100

/-- `maxJobs = 1e5`. -/
def maxJobs : Int := 100000

/-- Go `uint32(x)` for `x : int64`: the low 32 bits, i.e. `x mod 2^32`.
Used for every conversion to the `span` type. -/
def spanOfTick (x : Int) : Nat := (x % (2^32 : Int)).toNat

/-- `func (t tick) Time() time.Time { return time.Unix(0, int64(t)*int64(resolution)) }`,
as nanoseconds. -/
def tickTime (t : Int) : Int := t * resolution

/-- `func tickOf(t time.Time) tick { return tick(t.UnixNano() / int64(resolution)) }`.
Go `/` on `int64` truncates toward zero. -/
def tickOf (t : Int) : Int := Int.tdiv t resolution

/-- `func (s span) Duration() time.Duration { return time.Duration(s) * resolution }`,
as nanoseconds. -/
def spanDuration (s : Nat) : Int := (s : Int) * resolution

/-- `func durationOf(t time.Duration) span { return span(t / resolution) }`. -/
def durationOf (t : Int) : Nat := spanOfTick (Int.tdiv t resolution)

/-- `job` record: task handle, `RunAt` tick, `Since` span, `Every` span. -/
structure Job where
  task : Nat
  RunAt : Int
  Since : Nat
  Every : Nat
deriving DecidableEq

/-- Scheduler state: the atomic `next` cursor, the bucket ring and the
outstanding-job counter (`jobs`). The reusable `pending` buffer is not
state we track: it is overwritten (`s.pending[:0]`) on every `Tick`. -/
structure Scheduler where
  next : Int
  buckets : List (List Job)
  jobs : Int
deriving DecidableEq

/-- `func New() *Scheduler`. -/
def Scheduler.new : Scheduler :=
  { next := 0, buckets := List.replicate numBuckets [], jobs := 0 }

/-- `func (s *Scheduler) now() tick { return tick(s.next.Load()) }`. -/
def Scheduler.now (s : Scheduler) : Int := s.next

/-- `bucketOf` returns the bucket index `int(when) % numBuckets`.
Go `%` on `int` truncates toward zero (`Int.tmod`); for a negative tick the
resulting negative index would panic in Go, and every claim below only
exercises non-negative ticks. -/
def bucketIdx (when : Int) : Nat := (Int.tmod when (numBuckets : Int)).toNat

/-- `func (s *Scheduler) enqueueJob(job job)`: append to `bucketOf(job.RunAt)`. -/
def Scheduler.enqueueJob (s : Scheduler) (j : Job) : Scheduler :=
  let i := bucketIdx j.RunAt
  { s with buckets := s.buckets.set i ((s.buckets.getD i []) ++ [j]) }

/-- `func (s *Scheduler) schedule(event Task, when tick, repeat span)`:
increment the outstanding-job counter once (the admission spin loop only
re-reads the counter; sequentially, below capacity, it increments exactly
once) and enqueue `{event, when, span(when - s.now()), repeat}`. -/
def Scheduler.schedule (s : Scheduler) (event : Nat) (when : Int) (rep : Nat) : Scheduler :=
  Scheduler.enqueueJob { s with jobs := s.jobs + 1 }
    { task := event, RunAt := when, Since := spanOfTick (when - s.now), Every := rep }

/-- `func (s *Scheduler) Run(task Task)`. -/
def Scheduler.Run (s : Scheduler) (task : Nat) : Scheduler :=
  s.schedule task s.now 0

/-- `func (s *Scheduler) RunAt(task Task, at time.Time)`. -/
def Scheduler.RunAt (s : Scheduler) (task : Nat) (atTime : Int) : Scheduler :=
  s.schedule task (tickOf atTime) 0

/-- `func (s *Scheduler) after(dt time.Duration) tick`. -/
def Scheduler.after (s : Scheduler) (dt : Int) : Int :=
  s.now + (durationOf dt : Int)

/-- `func (s *Scheduler) RunAfter(task Task, delay time.Duration)`. -/
def Scheduler.RunAfter (s : Scheduler) (task : Nat) (delay : Int) : Scheduler :=
  s.schedule task (s.after delay) 0

/-- `func (s *Scheduler) alignedAt(i time.Duration) tick`:
`current + interval - current%interval` on `int64`. When
`tick(durationOf(i)) = 0` the `%` is an integer division by zero, which
panics in Go; the model returns `none` for that case. -/
def Scheduler.alignedAt (s : Scheduler) (i : Int) : Option Int :=
  let current := s.now
  let interval : Int := (durationOf i : Int)
  if interval = 0 then none
  else some (current + interval - Int.tmod current interval)

/-- `func (s *Scheduler) RunEvery(task Task, interval time.Duration)`. -/
def Scheduler.RunEvery (s : Scheduler) (task : Nat) (interval : Int) : Option Scheduler :=
  (s.alignedAt interval).map (fun w => s.schedule task w (durationOf interval))

/-- `func (s *Scheduler) RunEveryAt(task Task, interval time.Duration, startTime time.Time)`. -/
def Scheduler.RunEveryAt (s : Scheduler) (task : Nat) (interval : Int) (startTime : Int) : Scheduler :=
  s.schedule task (tickOf startTime) (durationOf interval)

/-- `func (s *Scheduler) Seek(t time.Time) { s.next.Store(int64(tickOf(t))) }`. -/
def Scheduler.Seek (s : Scheduler) (t : Int) : Scheduler :=
  { s with next := tickOf t }

/-- One recorded task invocation: the task id, the two arguments the
scheduler passed (`tickNow.Time()` and `task.Since.Duration()`, in
nanoseconds) and the boolean the task returned. -/
structure Exec where
  task : Nat
  nowNs : Int
  elapsedNs : Int
  ret : Bool
deriving DecidableEq

/-- The invocation record produced when job `j` is executed at tick `tickNow`. -/
def execOf (env : Nat → Int → Int → Bool) (tickNow : Int) (j : Job) : Exec :=
  { task := j.task, nowNs := tickTime tickNow, elapsedNs := spanDuration j.Since,
    ret := env j.task (tickTime tickNow) (spanDuration j.Since) }

/-- The state effect of one iteration of the execution loop of `Tick`:
`repeat := task.Task(timeNow, task.Since.Duration()) && task.Every != 0;
nextTick := tickNow + tick(task.Every)`; a repeating job is appended to
`bucketOf(nextTick)` (the same-bucket case updates `Since`/`RunAt` of the
drained job in place, the other case builds a fresh job with
`Since = Every`), otherwise the outstanding-job counter is decremented. -/
def stepJob (env : Nat → Int → Int → Bool) (tickNow : Int) (j : Job) (s : Scheduler) : Scheduler :=
  let ret := env j.task (tickTime tickNow) (spanDuration j.Since)
  let rep := ret && !(j.Every == 0)
  if rep then
    let nextTick := tickNow + (j.Every : Int)
    if bucketIdx nextTick = bucketIdx tickNow then
      { s with buckets := (s.buckets.set (bucketIdx tickNow)
          ((s.buckets.getD (bucketIdx tickNow) []) ++
            [{ j with Since := spanOfTick (nextTick - tickNow), RunAt := nextTick }])) }
    else
      { s with buckets := (s.buckets.set (bucketIdx nextTick)
          ((s.buckets.getD (bucketIdx nextTick) []) ++
            [{ task := j.task, RunAt := nextTick, Since := j.Every, Every := j.Every }])) }
  else
    { s with jobs := s.jobs - 1 }

/-- The execution loop of `Tick` over the drained `pending` buffer:
execute each due job in order, applying `stepJob` and recording the
invocation. -/
def runPending (env : Nat → Int → Int → Bool) (tickNow : Int) :
    List Job → Scheduler → Scheduler × List Exec
  | [], s => (s, [])
  | j :: rest, s =>
    let res := runPending env tickNow rest (stepJob env tickNow j s)
    (res.1, execOf env tickNow j :: res.2)

/-- `func (s *Scheduler) Tick() time.Time`: consume the cursor value
(`tick(s.next.Add(1) - 1)`), partition `bucketOf(tickNow)` into the jobs
still scheduled for later (`task.RunAt > tickNow`, kept in order) and the
due jobs (collected in order into the `pending` buffer), truncate the
bucket, then run the pending jobs. Returns the new state and the trace of
task invocations. -/
def Scheduler.Tick (env : Nat → Int → Int → Bool) (s : Scheduler) : Scheduler × List Exec :=
  let tickNow := s.next
  let b := bucketIdx tickNow
  let q := s.buckets.getD b []
  let kept := q.filter (fun j => decide (tickNow < j.RunAt))
  let pend := q.filter (fun j => decide (j.RunAt ≤ tickNow))
  let s2 : Scheduler := { s with next := s.next + 1, buckets := s.buckets.set b kept }
  runPending env tickNow pend s2

/-- `n` consecutive `Tick()` calls, concatenating the invocation traces. -/
def Scheduler.ticks (env : Nat → Int → Int → Bool) : Nat → Scheduler → Scheduler × List Exec
  | 0, s => (s, [])
  | n+1, s =>
    let r1 := s.Tick env
    let r2 := Scheduler.ticks env n r1.1
    (r2.1, r1.2 ++ r2.2)

/-- The due jobs the next `Tick` will drain from the current bucket. -/
def dueJobs (s : Scheduler) : List Job :=
  (s.buckets.getD (bucketIdx s.next) []).filter (fun j => decide (j.RunAt ≤ s.next))

/-- The jobs kept in the drained bucket (still scheduled for later). -/
def keptJobs (s : Scheduler) : List Job :=
  (s.buckets.getD (bucketIdx s.next) []).filter (fun j => decide (s.next < j.RunAt))

/-- The scheduler state after the drain phase of `Tick`, before the due
jobs are executed. -/
def drainState (s : Scheduler) : Scheduler :=
  { s with next := s.next + 1,
           buckets := (s.buckets.set (bucketIdx s.next) (keptJobs s)) }

/-- Number of drained jobs the next `Tick` will permanently drop
(one-shot, or the task returned `false`). -/
def droppedCount (env : Nat → Int → Int → Bool) (s : Scheduler) : Nat :=
  ((dueJobs s).filter
    (fun j => !(env j.task (tickTime s.next) (spanDuration j.Since) && !(j.Every == 0)))).length

/-- Total number of jobs stored across all buckets. -/
def totalJobs (s : Scheduler) : Nat := (s.buckets.map List.length).sum

/-- An API operation for sequential histories: a scheduling call (all six
public scheduling methods funnel into `schedule`) or a `Tick`. -/
inductive Op where
  | sched (task : Nat) (when : Int) (rep : Nat)
  | tick

/-- Apply one operation. -/
def applyOp (env : Nat → Int → Int → Bool) : Op → Scheduler → Scheduler
  | .sched t w r, s => s.schedule t w r
  | .tick, s => (s.Tick env).1

/-- Run a sequential history of operations. -/
def runOps (env : Nat → Int → Int → Bool) : List Op → Scheduler → Scheduler
  | [], s => s
  | op :: ops, s => runOps env ops (applyOp env op s)

/-- Jobs of task `t` in a queue. -/
def tFilter (q : List Job) (t : Nat) : List Job := q.filter (fun j => j.task == t)

/-- No bucket holds a job of task `t`. -/
def noTask (s : Scheduler) (t : Nat) : Prop :=
  ∀ i < numBuckets, tFilter (s.buckets.getD i []) t = []

/-- Exactly one job of task `t` is stored, namely `j`, and it sits in the
bucket `bucketOf(j.RunAt)`. -/
def oneTask (s : Scheduler) (t : Nat) (j : Job) : Prop :=
  j.task = t ∧
    ∀ i < numBuckets, tFilter (s.buckets.getD i []) t =
      if i = bucketIdx j.RunAt then [j] else []

instance (s : Scheduler) (t : Nat) : Decidable (noTask s t) := by
  unfold noTask
  infer_instance

instance (s : Scheduler) (t : Nat) (j : Job) : Decidable (oneTask s t j) := by
  unfold oneTask
  infer_instance

/-- The environment of tasks that always return `true` ("continue"). -/
def alwaysTrue : Nat → Int → Int → Bool := fun _ _ _ => true

/-- The environment of tasks that always return `false` ("stop"). -/
def alwaysFalse : Nat → Int → Int → Bool := fun _ _ _ => false

/-- Modelled from the spec: "Compute `Since = run_at_tick - current_cursor`
(clamped to the Span's representable range)" — the clamped (saturating)
conversion the spec describes, to be compared with the code's `spanOfTick`. -/
def sinceSpecClamped (runAtTick cursor : Int) : Nat :=
  (min (max (runAtTick - cursor) 0) (2^32 - 1)).toNat

/-! ### Basic helper lemmas -/

theorem getD_set_self {α : Type} {l : List α} {i : Nat} (h : i < l.length) (v d : α) :
    (l.set i v).getD i d = v := by
  simp [List.getD_eq_getElem?_getD, List.getElem?_set, h]

theorem getD_set_ne {α : Type} {l : List α} {i k : Nat} (h : i ≠ k) (v d : α) :
    (l.set i v).getD k d = l.getD k d := by
  simp [List.getD_eq_getElem?_getD, List.getElem?_set, h]

theorem bucketIdx_lt (w : Int) : bucketIdx w < numBuckets := by
  have h := Int.tmod_lt_of_pos w (b := (100 : Int)) (by norm_num)
  simp only [bucketIdx, numBuckets]
  push_cast
  omega

theorem bucketIdx_nonneg_eq {w : Int} (h : 0 ≤ w) :
    (bucketIdx w : Int) = w % (numBuckets : Int) := by
  simp only [bucketIdx, numBuckets]
  rw [Int.tmod_eq_emod h (by norm_num)]
  omega

theorem bucketIdx_add_numBuckets {w : Int} (h : 0 ≤ w) :
    bucketIdx (w + (numBuckets : Int)) = bucketIdx w := by
  have h1 : (bucketIdx (w + (numBuckets : Int)) : Int) = bucketIdx w := by
    rw [bucketIdx_nonneg_eq (by positivity), bucketIdx_nonneg_eq h]
    simp only [numBuckets]
    omega
  omega

theorem tFilter_append (a b : List Job) (t : Nat) :
    tFilter (a ++ b) t = tFilter a t ++ tFilter b t :=
  List.filter_append a b

theorem tFilter_single_ne {j : Job} {t : Nat} (h : j.task ≠ t) :
    tFilter [j] t = [] := by
  simp [tFilter, List.filter_cons, h]

theorem tFilter_single_eq {j : Job} {t : Nat} (h : j.task = t) :
    tFilter [j] t = [j] := by
  simp [tFilter, List.filter_cons, h]

theorem sum_length_set :
    ∀ (l : List (List Job)) (i : Nat), i < l.length → ∀ (v : List Job),
      ((l.set i v).map List.length).sum + (l.getD i []).length
        = (l.map List.length).sum + v.length := by
  intro l
  induction l with
  | nil => intro i h v; exact absurd h (by simp)
  | cons q rest ih =>
    intro i h v
    cases i with
    | zero =>
      simp only [List.set_cons_zero, List.map_cons, List.sum_cons, List.getD_cons_zero]
      omega
    | succ n =>
      have h' : n < rest.length := by simpa using h
      have ih' := ih n h' v
      simp only [List.set_cons_succ, List.map_cons, List.sum_cons, List.getD_cons_succ]
      omega

theorem length_filter_partition (now : Int) (l : List Job) :
    (l.filter (fun j => decide (now < j.RunAt))).length
      + (l.filter (fun j => decide (j.RunAt ≤ now))).length = l.length := by
  induction l with
  | nil => rfl
  | cons j rest ih =>
    by_cases h : now < j.RunAt
    · have h2 : ¬ (j.RunAt ≤ now) := by omega
      simp [List.filter_cons, h, h2]
      omega
    · have h2 : j.RunAt ≤ now := by omega
      simp [List.filter_cons, h, h2]
      omega

theorem length_filter_bool {α : Type} (p : α → Bool) (l : List α) :
    (l.filter p).length + (l.filter (fun a => ! p a)).length = l.length := by
  induction l with
  | nil => rfl
  | cons a rest ih =>
    by_cases h : p a = true
    · simp [List.filter_cons, h]; omega
    · simp only [Bool.not_eq_true] at h
      simp [List.filter_cons, h]; omega

theorem tFilter_filter (l : List Job) (p : Job → Bool) (t : Nat) :
    tFilter (l.filter p) t = (tFilter l t).filter p := by
  simp only [tFilter, List.filter_filter]
  exact List.filter_congr (fun j _ => Bool.and_comm _ _)

theorem tFilter_getD_set_append {l : List (List Job)} {β : Nat} {j' : Job} {t : Nat}
    (h : j'.task ≠ t) (i : Nat) :
    tFilter ((l.set β (l.getD β [] ++ [j'])).getD i []) t = tFilter (l.getD i []) t := by
  by_cases hlen : β < l.length
  · by_cases hib : i = β
    · subst hib
      rw [getD_set_self hlen, tFilter_append, tFilter_single_ne h, List.append_nil]
    · rw [getD_set_ne (fun hc => hib hc.symm)]
  · rw [List.set_eq_of_length_le (by omega)]

/-! ### `stepJob` lemmas -/

theorem stepJob_next (env : Nat → Int → Int → Bool) (now : Int) (j : Job) (s : Scheduler) :
    (stepJob env now j s).next = s.next := by
  simp only [stepJob]
  split
  · split <;> rfl
  · rfl

theorem stepJob_length (env : Nat → Int → Int → Bool) (now : Int) (j : Job) (s : Scheduler) :
    (stepJob env now j s).buckets.length = s.buckets.length := by
  simp only [stepJob]
  split
  · split <;> simp [List.length_set]
  · rfl

theorem stepJob_jobs (env : Nat → Int → Int → Bool) (now : Int) (j : Job) (s : Scheduler) :
    (stepJob env now j s).jobs =
      if env j.task (tickTime now) (spanDuration j.Since) && !(j.Every == 0) then s.jobs
      else s.jobs - 1 := by
  simp only [stepJob]
  split
  · split <;> rfl
  · rfl

theorem stepJob_total (env : Nat → Int → Int → Bool) (now : Int) (j : Job) {s : Scheduler}
    (hlen : s.buckets.length = numBuckets) :
    totalJobs (stepJob env now j s) =
      if env j.task (tickTime now) (spanDuration j.Since) && !(j.Every == 0) then
        totalJobs s + 1
      else totalJobs s := by
  have key : ∀ (β : Nat) (j' : Job), β < numBuckets →
      totalJobs { s with buckets := (s.buckets.set β (s.buckets.getD β [] ++ [j'])) }
        = totalJobs s + 1 := by
    intro β j' hβ
    have := sum_length_set s.buckets β (by omega) (s.buckets.getD β [] ++ [j'])
    simp only [totalJobs, List.length_append, List.length_singleton] at *
    omega
  simp only [stepJob]
  split
  · split
    · exact key _ _ (bucketIdx_lt _)
    · exact key _ _ (bucketIdx_lt _)
  · rfl

theorem stepJob_drop {env : Nat → Int → Int → Bool} {now : Int} {j : Job} (s : Scheduler)
    (h : (env j.task (tickTime now) (spanDuration j.Since) && !(j.Every == 0)) = false) :
    stepJob env now j s = { s with jobs := s.jobs - 1 } := by
  simp only [stepJob]
  rw [if_neg (by simp [h])]

theorem stepJob_tfilter_ne {env : Nat → Int → Int → Bool} {now : Int} {j : Job} {t : Nat}
    (s : Scheduler) (h : j.task ≠ t) (i : Nat) :
    tFilter ((stepJob env now j s).buckets.getD i []) t
      = tFilter (s.buckets.getD i []) t := by
  simp only [stepJob]
  split
  · split
    · exact tFilter_getD_set_append (by simpa using h) i
    · exact tFilter_getD_set_append (by simpa using h) i
  · rfl

/-! ### `runPending` lemmas -/

theorem tFilter_cons_eq_nil {j : Job} {rest : List Job} {t : Nat}
    (h : tFilter (j :: rest) t = []) : j.task ≠ t ∧ tFilter rest t = [] := by
  by_cases hj : (j.task == t) = true
  · rw [tFilter, List.filter_cons, if_pos hj] at h
    exact absurd h (by simp)
  · rw [tFilter, List.filter_cons, if_neg hj] at h
    exact ⟨by simpa using hj, h⟩

theorem tFilter_cons_eq_one {j j0 : Job} {rest : List Job} {t : Nat}
    (h : tFilter (j :: rest) t = [j0]) :
    (j.task = t ∧ j = j0 ∧ tFilter rest t = []) ∨ (j.task ≠ t ∧ tFilter rest t = [j0]) := by
  by_cases hj : (j.task == t) = true
  · rw [tFilter, List.filter_cons, if_pos hj] at h
    left
    refine ⟨by simpa using hj, ?_, ?_⟩
    · exact (List.cons_eq_cons.mp h).1
    · exact (List.cons_eq_cons.mp h).2
  · rw [tFilter, List.filter_cons, if_neg hj] at h
    exact Or.inr ⟨by simpa using hj, h⟩

theorem rp_next (env : Nat → Int → Int → Bool) (now : Int) :
    ∀ (pend : List Job) (s : Scheduler), (runPending env now pend s).1.next = s.next := by
  intro pend
  induction pend with
  | nil => intro s; rfl
  | cons j rest ih =>
    intro s
    simp only [runPending]
    rw [ih]
    exact stepJob_next env now j s

theorem rp_length (env : Nat → Int → Int → Bool) (now : Int) :
    ∀ (pend : List Job) (s : Scheduler),
      (runPending env now pend s).1.buckets.length = s.buckets.length := by
  intro pend
  induction pend with
  | nil => intro s; rfl
  | cons j rest ih =>
    intro s
    simp only [runPending]
    rw [ih]
    exact stepJob_length env now j s

theorem rp_trace (env : Nat → Int → Int → Bool) (now : Int) :
    ∀ (pend : List Job) (s : Scheduler),
      (runPending env now pend s).2 = pend.map (execOf env now) := by
  intro pend
  induction pend with
  | nil => intro s; rfl
  | cons j rest ih =>
    intro s
    simp only [runPending, List.map_cons]
    rw [ih]

theorem rp_trace_tfilter (env : Nat → Int → Int → Bool) (now : Int)
    (pend : List Job) (s : Scheduler) (t : Nat) :
    (runPending env now pend s).2.filter (fun e => e.task == t)
      = (tFilter pend t).map (execOf env now) := by
  rw [rp_trace, List.filter_map]
  rfl

theorem rp_jobs (env : Nat → Int → Int → Bool) (now : Int) :
    ∀ (pend : List Job) (s : Scheduler),
      (runPending env now pend s).1.jobs
        = s.jobs - ((pend.filter (fun j =>
            !(env j.task (tickTime now) (spanDuration j.Since) && !(j.Every == 0)))).length : Int) := by
  intro pend
  induction pend with
  | nil => intro s; simp [runPending]
  | cons j rest ih =>
    intro s
    simp only [runPending]
    rw [ih, stepJob_jobs]
    by_cases hrep : (env j.task (tickTime now) (spanDuration j.Since) && !(j.Every == 0)) = true
    · rw [if_pos hrep, List.filter_cons, if_neg (by simp [hrep])]
    · have hx : (env j.task (tickTime now) (spanDuration j.Since) && !(j.Every == 0)) = false := by
        simpa using hrep
      rw [if_neg hrep, List.filter_cons, if_pos (by rw [hx]; rfl)]
      simp only [List.length_cons]
      push_cast
      ring

theorem rp_total (env : Nat → Int → Int → Bool) (now : Int) :
    ∀ (pend : List Job) (s : Scheduler), s.buckets.length = numBuckets →
      totalJobs (runPending env now pend s).1
        = totalJobs s + (pend.filter (fun j =>
            env j.task (tickTime now) (spanDuration j.Since) && !(j.Every == 0))).length := by
  intro pend
  induction pend with
  | nil => intro s _; simp [runPending]
  | cons j rest ih =>
    intro s hlen
    simp only [runPending]
    rw [ih _ (by rw [stepJob_length]; exact hlen), stepJob_total env now j hlen]
    by_cases hrep : (env j.task (tickTime now) (spanDuration j.Since) && !(j.Every == 0)) = true
    · rw [if_pos hrep, List.filter_cons, if_pos hrep]
      simp only [List.length_cons]
      omega
    · rw [if_neg hrep, List.filter_cons, if_neg hrep]

theorem rp_tfilter_zero (env : Nat → Int → Int → Bool) (now : Int) (t : Nat) :
    ∀ (pend : List Job) (s : Scheduler), tFilter pend t = [] →
      ∀ i : Nat, tFilter ((runPending env now pend s).1.buckets.getD i []) t
        = tFilter (s.buckets.getD i []) t := by
  intro pend
  induction pend with
  | nil => intro s _ i; rfl
  | cons j rest ih =>
    intro s h i
    obtain ⟨hj, hrest⟩ := tFilter_cons_eq_nil h
    simp only [runPending]
    rw [ih _ hrest i]
    exact stepJob_tfilter_ne s hj i

theorem rp_tfilter_one_drop (env : Nat → Int → Int → Bool) (now : Int) (t : Nat) {j0 : Job}
    (hdrop : (env j0.task (tickTime now) (spanDuration j0.Since) && !(j0.Every == 0)) = false) :
    ∀ (pend : List Job) (s : Scheduler), tFilter pend t = [j0] →
      ∀ i : Nat, tFilter ((runPending env now pend s).1.buckets.getD i []) t
        = tFilter (s.buckets.getD i []) t := by
  intro pend
  induction pend with
  | nil => intro s h; exact absurd h (by simp [tFilter])
  | cons j rest ih =>
    intro s h i
    rcases tFilter_cons_eq_one h with ⟨-, hj0, hrest⟩ | ⟨hj, hrest⟩
    · subst hj0
      simp only [runPending]
      rw [rp_tfilter_zero env now t rest _ hrest i, stepJob_drop s hdrop]
    · simp only [runPending]
      rw [ih _ hrest i]
      exact stepJob_tfilter_ne s hj i

/-! ### `Tick` lemmas -/

theorem Tick_eq (env : Nat → Int → Int → Bool) (s : Scheduler) :
    s.Tick env = runPending env s.next (dueJobs s) (drainState s) := rfl

theorem Tick_next (env : Nat → Int → Int → Bool) (s : Scheduler) :
    (s.Tick env).1.next = s.next + 1 := by
  rw [Tick_eq, rp_next]
  rfl

theorem Tick_length (env : Nat → Int → Int → Bool) (s : Scheduler) :
    (s.Tick env).1.buckets.length = s.buckets.length := by
  rw [Tick_eq, rp_length]
  simp [drainState, List.length_set]

theorem Tick_trace (env : Nat → Int → Int → Bool) (s : Scheduler) :
    (s.Tick env).2 = (dueJobs s).map (execOf env s.next) := by
  rw [Tick_eq, rp_trace]

theorem Tick_trace_tfilter (env : Nat → Int → Int → Bool) (s : Scheduler) (t : Nat) :
    (s.Tick env).2.filter (fun e => e.task == t)
      = (tFilter (dueJobs s) t).map (execOf env s.next) := by
  rw [Tick_eq, rp_trace_tfilter]

theorem Tick_jobs (env : Nat → Int → Int → Bool) (s : Scheduler) :
    (s.Tick env).1.jobs = s.jobs - (droppedCount env s : Int) := by
  rw [Tick_eq, rp_jobs]
  rfl

theorem drain_tfilter {s : Scheduler} (hlen : s.buckets.length = numBuckets)
    (t : Nat) (i : Nat) :
    tFilter ((drainState s).buckets.getD i []) t
      = if i = bucketIdx s.next then tFilter (keptJobs s) t
        else tFilter (s.buckets.getD i []) t := by
  by_cases hi : i = bucketIdx s.next
  · rw [if_pos hi]
    have hgd : (drainState s).buckets.getD i [] = keptJobs s := by
      rw [hi]
      exact getD_set_self (by rw [hlen]; exact bucketIdx_lt _) _ _
    rw [hgd]
  · rw [if_neg hi]
    show tFilter ((s.buckets.set (bucketIdx s.next) (keptJobs s)).getD i []) t = _
    rw [getD_set_ne (fun hc => hi hc.symm)]

theorem Tick_invariant_jobs {env : Nat → Int → Int → Bool} {s : Scheduler}
    (hlen : s.buckets.length = numBuckets) (hinv : s.jobs = (totalJobs s : Int)) :
    (s.Tick env).1.jobs = (totalJobs (s.Tick env).1 : Int) := by
  have hb : bucketIdx s.next < s.buckets.length := by rw [hlen]; exact bucketIdx_lt _
  have hdlen : (drainState s).buckets.length = numBuckets := by
    simp [drainState, List.length_set, hlen]
  have hset := sum_length_set s.buckets (bucketIdx s.next) hb (keptJobs s)
  have hpart := length_filter_partition s.next (s.buckets.getD (bucketIdx s.next) [])
  have hsplit := length_filter_bool
    (fun j => env j.task (tickTime s.next) (spanDuration j.Since) && !(j.Every == 0)) (dueJobs s)
  have hdrain_total : totalJobs (drainState s) + (dueJobs s).length = totalJobs s := by
    simp only [totalJobs, drainState]
    simp only [keptJobs, dueJobs] at *
    omega
  rw [Tick_eq, rp_jobs, rp_total _ _ _ _ hdlen]
  have hjobs : (drainState s).jobs = s.jobs := rfl
  rw [hjobs, hinv]
  simp only [dueJobs] at *
  push_cast
  omega

theorem Tick_noTask (env : Nat → Int → Int → Bool) {s : Scheduler} {t : Nat}
    (hlen : s.buckets.length = numBuckets) (h : noTask s t) :
    noTask ((s.Tick env).1) t ∧ (s.Tick env).2.filter (fun e => e.task == t) = [] := by
  have hq : tFilter (s.buckets.getD (bucketIdx s.next) []) t = [] := h _ (bucketIdx_lt _)
  have hdue : tFilter (dueJobs s) t = [] := by
    rw [dueJobs, tFilter_filter, hq]
    rfl
  have hkept : tFilter (keptJobs s) t = [] := by
    rw [keptJobs, tFilter_filter, hq]
    rfl
  refine ⟨?_, ?_⟩
  · intro i hi
    rw [Tick_eq, rp_tfilter_zero _ _ _ _ _ hdue i, drain_tfilter hlen]
    by_cases hib : i = bucketIdx s.next
    · rw [if_pos hib, hkept]
    · rw [if_neg hib]
      exact h i hi
  · rw [Tick_trace_tfilter, hdue]
    rfl

theorem Tick_future (env : Nat → Int → Int → Bool) {s : Scheduler} {t : Nat} {j : Job}
    (hlen : s.buckets.length = numBuckets) (h : oneTask s t j) (hfut : s.next < j.RunAt) :
    oneTask ((s.Tick env).1) t j ∧ (s.Tick env).2.filter (fun e => e.task == t) = [] := by
  have hq : tFilter (s.buckets.getD (bucketIdx s.next) []) t
      = if bucketIdx s.next = bucketIdx j.RunAt then [j] else [] :=
    h.2 _ (bucketIdx_lt _)
  have hdue : tFilter (dueJobs s) t = [] := by
    rw [dueJobs, tFilter_filter, hq]
    by_cases hb : bucketIdx s.next = bucketIdx j.RunAt
    · rw [if_pos hb]
      simp [List.filter_cons]
      omega
    · rw [if_neg hb]
      rfl
  have hkept : tFilter (keptJobs s) t
      = if bucketIdx s.next = bucketIdx j.RunAt then [j] else [] := by
    rw [keptJobs, tFilter_filter, hq]
    by_cases hb : bucketIdx s.next = bucketIdx j.RunAt
    · rw [if_pos hb]
      simp [List.filter_cons, hfut]
    · rw [if_neg hb]
      rfl
  refine ⟨⟨h.1, ?_⟩, ?_⟩
  · intro i hi
    rw [Tick_eq, rp_tfilter_zero _ _ _ _ _ hdue i, drain_tfilter hlen]
    by_cases hib : i = bucketIdx s.next
    · rw [if_pos hib, hkept, hib]
    · rw [if_neg hib]
      exact h.2 i hi
  · rw [Tick_trace_tfilter, hdue]
    rfl

theorem Tick_fire_drop {env : Nat → Int → Int → Bool} {s : Scheduler} {t : Nat} {j : Job}
    (hlen : s.buckets.length = numBuckets) (h : oneTask s t j)
    (hdue : j.RunAt ≤ s.next) (hb : bucketIdx s.next = bucketIdx j.RunAt)
    (hdrop : (env j.task (tickTime s.next) (spanDuration j.Since) && !(j.Every == 0)) = false) :
    noTask ((s.Tick env).1) t ∧
      (s.Tick env).2.filter (fun e => e.task == t) = [execOf env s.next j] := by
  have hq : tFilter (s.buckets.getD (bucketIdx s.next) []) t = [j] := by
    have := h.2 _ (bucketIdx_lt s.next)
    rwa [if_pos hb] at this
  have hduef : tFilter (dueJobs s) t = [j] := by
    rw [dueJobs, tFilter_filter, hq]
    simp [List.filter_cons, hdue]
  have hkept : tFilter (keptJobs s) t = [] := by
    rw [keptJobs, tFilter_filter, hq]
    simp [List.filter_cons]
    omega
  refine ⟨?_, ?_⟩
  · intro i hi
    rw [Tick_eq, rp_tfilter_one_drop _ _ _ hdrop _ _ hduef i, drain_tfilter hlen]
    by_cases hib : i = bucketIdx s.next
    · rw [if_pos hib, hkept]
    · rw [if_neg hib]
      have := h.2 i hi
      rw [if_neg (by rw [← hb]; exact hib)] at this
      exact this
  · rw [Tick_trace_tfilter, hduef]
    rfl

/-! ### `schedule` lemmas -/

theorem schedule_next (s : Scheduler) (u : Nat) (w : Int) (r : Nat) :
    (s.schedule u w r).next = s.next := rfl

theorem schedule_jobs (s : Scheduler) (u : Nat) (w : Int) (r : Nat) :
    (s.schedule u w r).jobs = s.jobs + 1 := rfl

theorem schedule_length (s : Scheduler) (u : Nat) (w : Int) (r : Nat) :
    (s.schedule u w r).buckets.length = s.buckets.length := by
  simp [Scheduler.schedule, Scheduler.enqueueJob, List.length_set]

theorem schedule_bucket {s : Scheduler} (hlen : s.buckets.length = numBuckets)
    (u : Nat) (w : Int) (r : Nat) :
    (s.schedule u w r).buckets.getD (bucketIdx w) []
      = s.buckets.getD (bucketIdx w) []
        ++ [{ task := u, RunAt := w, Since := spanOfTick (w - s.next), Every := r }] :=
  getD_set_self (by rw [hlen]; exact bucketIdx_lt _) _ _

theorem schedule_total {s : Scheduler} (hlen : s.buckets.length = numBuckets)
    (u : Nat) (w : Int) (r : Nat) :
    totalJobs (s.schedule u w r) = totalJobs s + 1 := by
  have := sum_length_set s.buckets (bucketIdx w) (by rw [hlen]; exact bucketIdx_lt _)
    (s.buckets.getD (bucketIdx w) []
      ++ [{ task := u, RunAt := w, Since := spanOfTick (w - s.now), Every := r }])
  simp only [totalJobs, Scheduler.schedule, Scheduler.enqueueJob, List.length_append,
    List.length_singleton] at *
  omega

theorem schedule_tfilter_ne {s : Scheduler} {u t : Nat} (h : u ≠ t) (w : Int) (r : Nat)
    (i : Nat) :
    tFilter ((s.schedule u w r).buckets.getD i []) t = tFilter (s.buckets.getD i []) t :=
  tFilter_getD_set_append h i

theorem schedule_noTask {s : Scheduler} {u t : Nat} (h : u ≠ t) (hno : noTask s t)
    (w : Int) (r : Nat) : noTask (s.schedule u w r) t := by
  intro i hi
  rw [schedule_tfilter_ne h]
  exact hno i hi

theorem schedule_oneTask {s : Scheduler} {t : Nat} (hlen : s.buckets.length = numBuckets)
    (hno : noTask s t) (w : Int) (r : Nat) :
    oneTask (s.schedule t w r) t
      { task := t, RunAt := w, Since := spanOfTick (w - s.next), Every := r } := by
  refine ⟨rfl, ?_⟩
  intro i hi
  by_cases hib : i = bucketIdx w
  · rw [hib, schedule_bucket hlen, tFilter_append, tFilter_single_eq rfl, hno _ (bucketIdx_lt _),
      List.nil_append, if_pos rfl]
  · show tFilter ((s.buckets.set (bucketIdx w) _).getD i []) t = _
    rw [getD_set_ne (fun hc => hib hc.symm), hno i hi, if_neg hib]

theorem oneTask_schedule_ne {s : Scheduler} {t u : Nat} {j : Job} (h : u ≠ t)
    (hone : oneTask s t j) (w : Int) (r : Nat) : oneTask (s.schedule u w r) t j := by
  refine ⟨hone.1, ?_⟩
  intro i hi
  rw [schedule_tfilter_ne h]
  exact hone.2 i hi

theorem noTask_new (t : Nat) : noTask Scheduler.new t := by
  intro i _
  show tFilter ((List.replicate numBuckets ([] : List Job)).getD i []) t = []
  rw [List.getD_eq_getElem?_getD, List.getElem?_replicate]
  split <;> rfl

/-! ### Iterated `Tick` lemmas -/

theorem ticks_next (env : Nat → Int → Int → Bool) :
    ∀ (n : Nat) (s : Scheduler), (Scheduler.ticks env n s).1.next = s.next + n := by
  intro n
  induction n with
  | zero => intro s; simp [Scheduler.ticks]
  | succ m ih =>
    intro s
    simp only [Scheduler.ticks]
    rw [ih, Tick_next]
    push_cast
    ring

theorem ticks_length (env : Nat → Int → Int → Bool) :
    ∀ (n : Nat) (s : Scheduler),
      (Scheduler.ticks env n s).1.buckets.length = s.buckets.length := by
  intro n
  induction n with
  | zero => intro s; rfl
  | succ m ih =>
    intro s
    simp only [Scheduler.ticks]
    rw [ih, Tick_length]

theorem ticks_add (env : Nat → Int → Int → Bool) :
    ∀ (m n : Nat) (s : Scheduler),
      (Scheduler.ticks env (m + n) s).1
          = (Scheduler.ticks env n (Scheduler.ticks env m s).1).1
        ∧ (Scheduler.ticks env (m + n) s).2
          = (Scheduler.ticks env m s).2
            ++ (Scheduler.ticks env n (Scheduler.ticks env m s).1).2 := by
  intro m
  induction m with
  | zero =>
    intro n s
    simp [Scheduler.ticks]
  | succ p ih =>
    intro n s
    have harith : p + 1 + n = (p + n) + 1 := by omega
    rw [harith]
    simp only [Scheduler.ticks]
    obtain ⟨h1, h2⟩ := ih n (s.Tick env).1
    refine ⟨h1, ?_⟩
    rw [h2, List.append_assoc]

theorem iter_noTask (env : Nat → Int → Int → Bool) (t : Nat) :
    ∀ (n : Nat) (s : Scheduler), s.buckets.length = numBuckets → noTask s t →
      noTask (Scheduler.ticks env n s).1 t
        ∧ (Scheduler.ticks env n s).2.filter (fun e => e.task == t) = [] := by
  intro n
  induction n with
  | zero => intro s _ h; exact ⟨h, rfl⟩
  | succ m ih =>
    intro s hlen h
    obtain ⟨h1, h2⟩ := Tick_noTask env hlen h
    obtain ⟨ih1, ih2⟩ := ih (s.Tick env).1 (by rw [Tick_length]; exact hlen) h1
    simp only [Scheduler.ticks]
    exact ⟨ih1, by rw [List.filter_append, h2, ih2, List.nil_append]⟩

theorem iter_future (env : Nat → Int → Int → Bool) (t : Nat) (j : Job) :
    ∀ (n : Nat) (s : Scheduler), s.buckets.length = numBuckets → oneTask s t j →
      s.next + n ≤ j.RunAt →
      oneTask (Scheduler.ticks env n s).1 t j
        ∧ (Scheduler.ticks env n s).2.filter (fun e => e.task == t) = [] := by
  intro n
  induction n with
  | zero => intro s _ h _; exact ⟨h, rfl⟩
  | succ m ih =>
    intro s hlen h hle
    have hfut : s.next < j.RunAt := by
      push_cast at hle
      omega
    obtain ⟨h1, h2⟩ := Tick_future env hlen h hfut
    have hle' : (s.Tick env).1.next + m ≤ j.RunAt := by
      rw [Tick_next]
      push_cast at hle ⊢
      omega
    obtain ⟨ih1, ih2⟩ := ih (s.Tick env).1 (by rw [Tick_length]; exact hlen) h1 hle'
    simp only [Scheduler.ticks]
    exact ⟨ih1, by rw [List.filter_append, h2, ih2, List.nil_append]⟩

theorem iter_oneshot_count (env : Nat → Int → Int → Bool) (t : Nat) (j : Job)
    (s : Scheduler) (hlen : s.buckets.length = numBuckets) (hone : oneTask s t j)
    (hE : j.Every = 0) (hle : s.next ≤ j.RunAt) (n : Nat) :
    (Scheduler.ticks env n s).2.filter (fun e => e.task == t)
      = if (s.next + n : Int) ≤ j.RunAt then [] else [execOf env j.RunAt j] := by
  by_cases hn : (s.next + (n : Int)) ≤ j.RunAt
  · rw [if_pos hn]
    exact (iter_future env t j n s hlen hone hn).2
  · rw [if_neg hn]
    have hk0 : (0 : Int) ≤ j.RunAt - s.next := by omega
    have hk : (((j.RunAt - s.next).toNat : Nat) : Int) = j.RunAt - s.next :=
      Int.toNat_of_nonneg hk0
    obtain ⟨m, hm⟩ : ∃ m, n = (j.RunAt - s.next).toNat + (1 + m) :=
      ⟨n - (j.RunAt - s.next).toNat - 1, by omega⟩
    subst hm
    obtain ⟨hA1, hA2⟩ := ticks_add env ((j.RunAt - s.next).toNat) (1 + m) s
    rw [hA2, List.filter_append]
    have hfk : (Scheduler.ticks env ((j.RunAt - s.next).toNat) s).1.next = j.RunAt := by
      rw [ticks_next]
      omega
    obtain ⟨honek, htrk⟩ := iter_future env t j ((j.RunAt - s.next).toNat) s hlen hone (by omega)
    rw [htrk, List.nil_append]
    have hlenk : (Scheduler.ticks env ((j.RunAt - s.next).toNat) s).1.buckets.length
        = numBuckets := by
      rw [ticks_length]
      exact hlen
    have hdropc : (env j.task
        (tickTime (Scheduler.ticks env ((j.RunAt - s.next).toNat) s).1.next)
        (spanDuration j.Since) && !(j.Every == 0)) = false := by
      simp [hE]
    obtain ⟨hno1, htr1⟩ := Tick_fire_drop hlenk honek (by omega) (by rw [hfk]) hdropc
    obtain ⟨hB1, hB2⟩ := ticks_add env 1 m (Scheduler.ticks env ((j.RunAt - s.next).toNat) s).1
    rw [hB2, List.filter_append]
    have h1tr : ∀ s' : Scheduler, (Scheduler.ticks env 1 s').2 = (s'.Tick env).2 := by
      intro s'
      simp [Scheduler.ticks]
    have h1st : ∀ s' : Scheduler, (Scheduler.ticks env 1 s').1 = (s'.Tick env).1 := by
      intro s'
      simp [Scheduler.ticks]
    rw [h1tr, htr1]
    have hlen1 : (((Scheduler.ticks env ((j.RunAt - s.next).toNat) s).1).Tick env).1.buckets.length
        = numBuckets := by
      rw [Tick_length]
      exact hlenk
    obtain ⟨-, htail⟩ := iter_noTask env t m _ hlen1 hno1
    rw [h1st, htail, List.append_nil, hfk]

theorem ticks_exec_now (env : Nat → Int → Int → Bool) :
    ∀ (n : Nat) (s : Scheduler), ∀ e ∈ (Scheduler.ticks env n s).2,
      ∃ k : Nat, k < n ∧ e.nowNs = tickTime (s.next + k) := by
  intro n
  induction n with
  | zero => intro s e he; exact absurd he (by simp [Scheduler.ticks])
  | succ m ih =>
    intro s e he
    simp only [Scheduler.ticks] at he
    rcases List.mem_append.mp he with h1 | h2
    · refine ⟨0, by omega, ?_⟩
      rw [Tick_trace] at h1
      obtain ⟨jj, -, hj⟩ := List.mem_map.mp h1
      rw [← hj]
      show tickTime s.next = tickTime (s.next + ((0 : Nat) : Int))
      norm_num
    · obtain ⟨k, hk, hnow⟩ := ih (s.Tick env).1 e h2
      refine ⟨k + 1, by omega, ?_⟩
      rw [hnow, Tick_next]
      push_cast
      ring_nf

theorem tickOf_tickTime (x : Int) : tickOf (tickTime x) = x := by
  unfold tickOf tickTime
  exact Int.mul_tdiv_cancel x (by norm_num [resolution])

theorem runOps_inv (env : Nat → Int → Int → Bool) :
    ∀ (ops : List Op) (s : Scheduler),
      s.buckets.length = numBuckets → s.jobs = (totalJobs s : Int) →
      (runOps env ops s).buckets.length = numBuckets
        ∧ (runOps env ops s).jobs = (totalJobs (runOps env ops s) : Int) := by
  intro ops
  induction ops with
  | nil => intro s h1 h2; exact ⟨h1, h2⟩
  | cons op rest ih =>
    intro s h1 h2
    simp only [runOps]
    cases op with
    | sched u w r =>
      apply ih
      · show (s.schedule u w r).buckets.length = numBuckets
        rw [schedule_length]
        exact h1
      · show (s.schedule u w r).jobs = (totalJobs (s.schedule u w r) : Int)
        rw [schedule_jobs, schedule_total h1]
        push_cast
        omega
    | tick =>
      apply ih
      · show ((s.Tick env).1).buckets.length = numBuckets
        rw [Tick_length]
        exact h1
      · exact Tick_invariant_jobs h1 h2

/-! ### Claim theorems -/

/-- C10: `Seek(t)` modifies only the cursor, setting it to `tickOf t`; every
bucket's job queue and the outstanding-job counter are unchanged, so pending
jobs are neither dropped nor executed by a `Seek`. -/
theorem C10_seek_frame (s : Scheduler) (t : Int) :
    (s.Seek t).buckets = s.buckets ∧ (s.Seek t).jobs = s.jobs
      ∧ (s.Seek t).next = tickOf t :=
  ⟨rfl, rfl, rfl⟩

/-- C8: `tickOf` truncates toward zero — for non-negative wall times it is
the floor of nanoseconds divided by the resolution (characterised by the two
bounds below) — and `tick.Time` is its exact inverse on resolution-aligned
wall times. -/
theorem C8_tickOf_floor_inverse :
    (∀ n : Int, 0 ≤ n → tickOf n * resolution ≤ n ∧ n < (tickOf n + 1) * resolution)
  ∧ (∀ n : Int, n % resolution = 0 → tickTime (tickOf n) = n) := by
  constructor
  · intro n hn
    have h : tickOf n = n / resolution := by
      unfold tickOf
      exact Int.tdiv_eq_ediv hn (by norm_num [resolution])
    rw [h]
    unfold resolution
    constructor
    · omega
    · omega
  · intro n hdvd
    obtain ⟨k, hk⟩ := Int.dvd_of_emod_eq_zero hdvd
    subst hk
    unfold tickOf tickTime
    rw [mul_comm resolution k, Int.mul_tdiv_cancel k (by norm_num [resolution])]

/-- Witness for C8 at the concrete wall times 25 ms (floor bounds) and
30 ms (aligned, exact inverse). -/
theorem C8_witness :
    ((0 : Int) ≤ 25000000
      ∧ tickOf 25000000 * resolution ≤ 25000000
      ∧ (25000000 : Int) < (tickOf 25000000 + 1) * resolution)
  ∧ ((30000000 : Int) % resolution = 0 ∧ tickTime (tickOf 30000000) = 30000000) :=
  ⟨⟨by decide,
    (C8_tickOf_floor_inverse.1 25000000 (by decide)).1,
    (C8_tickOf_floor_inverse.1 25000000 (by decide)).2⟩,
   ⟨by decide, C8_tickOf_floor_inverse.2 30000000 (by decide)⟩⟩

/-- C9 counterexample: the claim says that `interval ≥ resolution` makes the
division-by-zero branch unreachable, but at `interval = 2^32 * resolution`
(which is `≥ resolution`) the `uint32` conversion in `durationOf` wraps to
`0`, so `alignedAt` still reaches the modulo-by-zero (panic) branch. -/
theorem C9_counterexample :
    resolution ≤ 2^32 * resolution
  ∧ durationOf (2^32 * resolution) = 0
  ∧ Scheduler.new.alignedAt (2^32 * resolution) = none
  ∧ Scheduler.new.RunEvery 0 (2^32 * resolution) = none := by
  refine ⟨by decide, by decide, ?_, ?_⟩
  · show Scheduler.new.alignedAt (2^32 * resolution) = none
    unfold Scheduler.alignedAt
    rw [if_pos (by decide)]
  · show (Scheduler.new.alignedAt (2^32 * resolution)).map _ = none
    unfold Scheduler.alignedAt
    rw [if_pos (by decide)]
    rfl

/-- C9 (amended): for `0 ≤ interval < resolution`, `durationOf interval = 0`
and `alignedAt`/`RunEvery` hit the integer-modulo-by-zero panic branch; the
panic-freedom precondition is `resolution ≤ interval < 2^32 * resolution`
(not merely `interval ≥ resolution`), under which `durationOf interval ≥ 1`
and the panic branch is unreachable. -/
theorem C9_amended_precondition :
    (∀ (s : Scheduler) (u : Nat) (i : Int), 0 ≤ i → i < resolution →
        durationOf i = 0 ∧ s.alignedAt i = none ∧ s.RunEvery u i = none)
  ∧ (∀ (s : Scheduler) (i : Int), resolution ≤ i → i < 2^32 * resolution →
        1 ≤ durationOf i ∧ ∃ w : Int, s.alignedAt i = some w) := by
  constructor
  · intro s u i h0 hres
    have hd : Int.tdiv i resolution = 0 :=
      Int.tdiv_eq_zero_of_lt h0 hres
    have hdur : durationOf i = 0 := by
      unfold durationOf
      rw [hd]
      rfl
    have halign : s.alignedAt i = none := by
      unfold Scheduler.alignedAt
      rw [if_pos (by rw [hdur]; rfl)]
    refine ⟨hdur, halign, ?_⟩
    show (s.alignedAt i).map _ = none
    rw [halign]
    rfl
  · intro s i hres hub
    have h0 : (0 : Int) ≤ i := le_trans (by norm_num [resolution]) hres
    have hdiv : Int.tdiv i resolution = i / resolution :=
      Int.tdiv_eq_ediv h0 (by norm_num [resolution])
    have hbounds : 1 ≤ i / resolution ∧ i / resolution < 2^32 := by
      unfold resolution at *
      constructor
      · omega
      · omega
    have hdur : 1 ≤ durationOf i := by
      unfold durationOf spanOfTick
      rw [hdiv]
      have : i / resolution % 2^32 = i / resolution := by
        omega
      rw [this]
      omega
    refine ⟨hdur, ?_⟩
    unfold Scheduler.alignedAt
    rw [if_neg (by omega)]
    exact ⟨_, rfl⟩

/-- Witness for C9 (amended) at the concrete intervals 5 ms (below the
resolution: panic branch) and 25 ms (within the safe precondition). -/
theorem C9_witness :
    ((0 : Int) ≤ 5000000 ∧ (5000000 : Int) < resolution
      ∧ durationOf 5000000 = 0 ∧ Scheduler.new.alignedAt 5000000 = none
      ∧ Scheduler.new.RunEvery 3 5000000 = none)
  ∧ (resolution ≤ (25000000 : Int) ∧ (25000000 : Int) < 2^32 * resolution
      ∧ 1 ≤ durationOf 25000000
      ∧ ∃ w : Int, Scheduler.new.alignedAt 25000000 = some w) :=
  ⟨⟨by decide, by decide,
    (C9_amended_precondition.1 Scheduler.new 3 5000000 (by decide) (by decide)).1,
    (C9_amended_precondition.1 Scheduler.new 3 5000000 (by decide) (by decide)).2.1,
    (C9_amended_precondition.1 Scheduler.new 3 5000000 (by decide) (by decide)).2.2⟩,
   ⟨by decide, by decide,
    (C9_amended_precondition.2 Scheduler.new 25000000 (by decide) (by decide)).1,
    (C9_amended_precondition.2 Scheduler.new 25000000 (by decide) (by decide)).2⟩⟩

/-- C6 counterexample: with the cursor at tick 1, scheduling a job due at
tick 0 stores `Since = 2^32 - 1` (Go `uint32` wraparound of `-1`), not the
clamped value `0` that the claim's "clamped to the Span's representable
range" would give. -/
theorem C6_counterexample :
    (((Scheduler.new.Seek resolution).schedule 0 0 0).buckets.getD 0 []).map Job.Since
        = [4294967295]
  ∧ sinceSpecClamped 0 ((Scheduler.new.Seek resolution).next) = 0
  ∧ (4294967295 : Nat) ≠ 0 := by
  refine ⟨by decide, by decide, by decide⟩

/-- C6 (amended): the `Since` stored by every scheduling call equals
`(run_at_tick - cursor)` reduced modulo `2^32` (Go's wrapping `uint32`
conversion, not a clamp), and the elapsed duration passed to a task at
execution is its job's `Since` converted to a duration
(`Since.Duration()`), at the wall time of the processed tick. -/
theorem C6_amended_since_wraps :
    (∀ (s : Scheduler) (u : Nat) (w : Int) (r : Nat), s.buckets.length = numBuckets →
      (s.schedule u w r).buckets.getD (bucketIdx w) []
        = s.buckets.getD (bucketIdx w) []
          ++ [{ task := u, RunAt := w, Since := ((w - s.next) % 2^32).toNat, Every := r }])
  ∧ (∀ (env : Nat → Int → Int → Bool) (s : Scheduler) (e : Exec), e ∈ (s.Tick env).2 →
      ∃ j ∈ dueJobs s, e.task = j.task ∧ e.elapsedNs = spanDuration j.Since
        ∧ e.nowNs = tickTime s.next) := by
  constructor
  · intro s u w r hlen
    exact schedule_bucket hlen u w r
  · intro env s e he
    rw [Tick_trace] at he
    obtain ⟨j, hj, hje⟩ := List.mem_map.mp he
    refine ⟨j, hj, ?_, ?_, ?_⟩ <;> rw [← hje] <;> rfl

/-- Witness for C6 (amended): a fresh scheduler sought to tick 2, with a job
scheduled for tick 5 (stored `Since = 3`), and one due execution at tick 0
of a fresh scheduler. -/
theorem C6_witness :
    ((Scheduler.new.Seek (2 * resolution)).buckets.length = numBuckets
      ∧ ((Scheduler.new.Seek (2 * resolution)).schedule 4 5 0).buckets.getD (bucketIdx 5) []
        = (Scheduler.new.Seek (2 * resolution)).buckets.getD (bucketIdx 5) []
          ++ [{ task := 4, RunAt := 5,
                Since := (((5 : Int) - (Scheduler.new.Seek (2 * resolution)).next) % 2^32).toNat,
                Every := 0 }])
  ∧ ({ task := 0, nowNs := 0, elapsedNs := 0, ret := true } : Exec) ∈
        ((Scheduler.new.Run 0).Tick alwaysTrue).2
  ∧ ∃ j ∈ dueJobs (Scheduler.new.Run 0),
      ({ task := 0, nowNs := 0, elapsedNs := 0, ret := true } : Exec).task = j.task
        ∧ ({ task := 0, nowNs := 0, elapsedNs := 0, ret := true } : Exec).elapsedNs
            = spanDuration j.Since
        ∧ ({ task := 0, nowNs := 0, elapsedNs := 0, ret := true } : Exec).nowNs
            = tickTime (Scheduler.new.Run 0).next :=
  ⟨⟨by decide, C6_amended_since_wraps.1 _ 4 5 0 (by decide)⟩,
   by decide,
   C6_amended_since_wraps.2 alwaysTrue (Scheduler.new.Run 0) _ (by decide)⟩

/-- C2: each `Tick()` call advances the cursor by exactly one and processes
the tick value just consumed (every task invocation in the call receives
that tick's wall time); `N` consecutive calls consume exactly the `N`
consecutive tick values starting at the cursor. -/
theorem C2_tick_monotonic :
    (∀ (env : Nat → Int → Int → Bool) (s : Scheduler),
        (s.Tick env).1.next = s.next + 1
      ∧ ∀ e ∈ (s.Tick env).2, e.nowNs = tickTime s.next)
  ∧ (∀ (env : Nat → Int → Int → Bool) (n : Nat) (s : Scheduler),
        (Scheduler.ticks env n s).1.next = s.next + n
      ∧ ∀ e ∈ (Scheduler.ticks env n s).2,
          ∃ k : Nat, k < n ∧ e.nowNs = tickTime (s.next + k)) := by
  constructor
  · intro env s
    refine ⟨Tick_next env s, ?_⟩
    intro e he
    rw [Tick_trace] at he
    obtain ⟨j, -, hj⟩ := List.mem_map.mp he
    rw [← hj]
    rfl
  · intro env n s
    exact ⟨ticks_next env n s, ticks_exec_now env n s⟩

/-- Witness for C2 on a fresh scheduler with one due task, over one and
five `Tick` calls. -/
theorem C2_witness :
    ((Scheduler.new.Run 0).Tick alwaysTrue).1.next = (Scheduler.new.Run 0).next + 1
  ∧ ({ task := 0, nowNs := 0, elapsedNs := 0, ret := true } : Exec).nowNs
      = tickTime (Scheduler.new.Run 0).next
  ∧ (Scheduler.ticks alwaysTrue 5 (Scheduler.new.Run 0)).1.next
      = (Scheduler.new.Run 0).next + 5
  ∧ ∃ k : Nat, k < 5
      ∧ ({ task := 0, nowNs := 0, elapsedNs := 0, ret := true } : Exec).nowNs
          = tickTime ((Scheduler.new.Run 0).next + k) :=
  ⟨(C2_tick_monotonic.1 alwaysTrue (Scheduler.new.Run 0)).1,
   (C2_tick_monotonic.1 alwaysTrue (Scheduler.new.Run 0)).2 _ (by decide),
   (C2_tick_monotonic.2 alwaysTrue 5 (Scheduler.new.Run 0)).1,
   (C2_tick_monotonic.2 alwaysTrue 5 (Scheduler.new.Run 0)).2 _ (by decide)⟩

/-- C7: the outstanding-job counter is incremented exactly once per
scheduling call, each `Tick` decrements it exactly by the number of jobs it
permanently drops (one-shot executed, or recurring task returned stop; a
continuing recurring job is re-inserted without touching the counter), and
after any sequential history of schedule/Tick operations from a fresh
scheduler the counter equals the total number of jobs stored in the
buckets. -/
theorem C7_jobs_counter :
    (∀ (env : Nat → Int → Int → Bool) (ops : List Op),
        (runOps env ops Scheduler.new).jobs
          = (totalJobs (runOps env ops Scheduler.new) : Int))
  ∧ (∀ (s : Scheduler) (u : Nat) (w : Int) (r : Nat),
        (s.schedule u w r).jobs = s.jobs + 1)
  ∧ (∀ (env : Nat → Int → Int → Bool) (s : Scheduler),
        (s.Tick env).1.jobs = s.jobs - (droppedCount env s : Int)) := by
  refine ⟨?_, schedule_jobs, fun env s => Tick_jobs env s⟩
  intro env ops
  exact (runOps_inv env ops Scheduler.new (by decide) (by decide)).2

/-- C4 counterexample: `run_every(task, 10ms)` plus `run_every(task, 30ms)`
registered at tick 0 and driven for 10 ticks fire 12 times in total, not the
14 the claim states. -/
theorem C4_counterexample :
    ((Scheduler.new.RunEvery 0 10000000).bind (fun s => s.RunEvery 1 30000000)).map
      (fun s => (Scheduler.ticks alwaysTrue 10 s).2.length) = some 12
  ∧ (12 : Nat) ≠ 14 := by
  refine ⟨by decide, by decide⟩

/-- C4 (amended): with resolution 10 ms and the cursor at tick 0,
`run_every(task, 10ms)` together with `run_every(task, 30ms)`, driven for 10
consecutive ticks with tasks always returning continue, fire a combined
total of exactly 12 times (9 + 3): `alignedAt` places the first fires at
ticks 1 and 3 respectively, so the 10 ms task fires at ticks 1–9 and the
30 ms task at ticks 3, 6, 9. -/
theorem C4_run_every_10_30 :
    ((Scheduler.new.RunEvery 0 10000000).bind (fun s => s.RunEvery 1 30000000)).map
      (fun s => ((Scheduler.ticks alwaysTrue 10 s).2.filter (fun e => e.task == 0)).length)
      = some 9
  ∧ ((Scheduler.new.RunEvery 0 10000000).bind (fun s => s.RunEvery 1 30000000)).map
      (fun s => ((Scheduler.ticks alwaysTrue 10 s).2.filter (fun e => e.task == 1)).length)
      = some 3
  ∧ ((Scheduler.new.RunEvery 0 10000000).bind (fun s => s.RunEvery 1 30000000)).map
      (fun s => (Scheduler.ticks alwaysTrue 10 s).2.length) = some 12 := by
  refine ⟨by decide, by decide, by decide⟩

set_option maxRecDepth 100000 in
/-- C5: with resolution 10 ms and the cursor at tick 0,
`run_every(task, 1s)` (an interval of 100 ticks) with the task always
returning continue, driven for 510 consecutive ticks, fires exactly 5
times. -/
theorem C5_run_every_1s :
    (Scheduler.new.RunEvery 0 1000000000).map
      (fun s => ((Scheduler.ticks alwaysTrue 510 s).2.filter (fun e => e.task == 0)).length)
    = some 5 := by decide

/-- C3: a recurring task (non-zero interval) whose sole pending job is
drained by the current `Tick` and whose task function returns `false`
("stop") on that (its k-th) invocation is executed that one time, is
deregistered (no bucket holds it any more) even though it was recurring,
and never fires again under every continuation of `Tick` calls. -/
theorem C3_stop_semantics (env : Nat → Int → Int → Bool) (s : Scheduler) (t : Nat) (j : Job)
    (hlen : s.buckets.length = numBuckets) (hone : oneTask s t j)
    (hrec : 0 < j.Every)
    (hdue : j.RunAt ≤ s.next) (hb : bucketIdx s.next = bucketIdx j.RunAt)
    (hstop : env t (tickTime s.next) (spanDuration j.Since) = false) :
    (s.Tick env).2.filter (fun e => e.task == t) = [execOf env s.next j]
  ∧ noTask (s.Tick env).1 t
  ∧ ∀ n : Nat,
      (Scheduler.ticks env n (s.Tick env).1).2.filter (fun e => e.task == t) = [] := by
  have hstop' : (env j.task (tickTime s.next) (spanDuration j.Since)
      && !(j.Every == 0)) = false := by
    rw [hone.1, hstop]
    rfl
  obtain ⟨hno, htr⟩ := Tick_fire_drop hlen hone hdue hb hstop'
  refine ⟨htr, hno, ?_⟩
  intro n
  exact (iter_noTask env t n _ (by rw [Tick_length]; exact hlen) hno).2

set_option maxRecDepth 100000 in
/-- Witness for C3: a recurring 10 ms task (id 7) registered at tick 0 via
`RunEveryAt`, drained by the first `Tick` under the always-stop
environment, fires once and never again over the next 4 ticks. -/
theorem C3_witness :
    oneTask (Scheduler.new.RunEveryAt 7 10000000 0) 7
        { task := 7, RunAt := 0, Since := 0, Every := 1 }
  ∧ ((Scheduler.new.RunEveryAt 7 10000000 0).Tick alwaysFalse).2.filter
        (fun e => e.task == 7)
      = [execOf alwaysFalse 0 { task := 7, RunAt := 0, Since := 0, Every := 1 }]
  ∧ noTask ((Scheduler.new.RunEveryAt 7 10000000 0).Tick alwaysFalse).1 7
  ∧ (Scheduler.ticks alwaysFalse 4
        ((Scheduler.new.RunEveryAt 7 10000000 0).Tick alwaysFalse).1).2.filter
        (fun e => e.task == 7) = [] :=
  ⟨by decide,
   (C3_stop_semantics alwaysFalse (Scheduler.new.RunEveryAt 7 10000000 0) 7
      { task := 7, RunAt := 0, Since := 0, Every := 1 }
      (by decide) (by decide) (by decide) (by decide) (by decide) (by decide)).1,
   (C3_stop_semantics alwaysFalse (Scheduler.new.RunEveryAt 7 10000000 0) 7
      { task := 7, RunAt := 0, Since := 0, Every := 1 }
      (by decide) (by decide) (by decide) (by decide) (by decide) (by decide)).2.1,
   (C3_stop_semantics alwaysFalse (Scheduler.new.RunEveryAt 7 10000000 0) 7
      { task := 7, RunAt := 0, Since := 0, Every := 1 }
      (by decide) (by decide) (by decide) (by decide) (by decide) (by decide)).2.2 4⟩

/-- C1: on a scheduler holding no job of tasks `t1`, `t2`, with the cursor
non-negative and at most `W = tickOf w`, after `RunAt(t1, w)` and a second
`RunAt(t2, (W + wheel_size).Time())`: both jobs land in the same bucket
(`bucketIdx (W + wheel_size) = bucketIdx W`); under any number `n` of
consecutive `Tick()` calls, `t1` never executes while all processed ticks
are `< W`, executes exactly once as soon as tick `W` has been processed and
at most once however many further calls occur, and its one execution is at
tick `W`'s wall time; the drain at tick `W` executes only the earlier job —
as long as tick `W + wheel_size` has not been processed, `t2` has not
executed and its job is still intact in the shared bucket. -/
theorem C1_run_at_due_once (env : Nat → Int → Int → Bool) (s : Scheduler)
    (t1 t2 : Nat) (w W : Int)
    (hW : W = tickOf w)
    (hlen : s.buckets.length = numBuckets)
    (h1 : noTask s t1) (h2 : noTask s t2) (hne : t1 ≠ t2)
    (hc0 : 0 ≤ s.next) (hcW : s.next ≤ W) :
    bucketIdx (W + (numBuckets : Int)) = bucketIdx W
  ∧ (∀ n : Nat,
      ((Scheduler.ticks env n
          ((s.RunAt t1 w).RunAt t2 (tickTime (W + (numBuckets : Int))))).2.filter
        (fun e => e.task == t1)).length
      = if (s.next + n : Int) ≤ W then 0 else 1)
  ∧ (∀ n : Nat, ∀ e ∈ (Scheduler.ticks env n
          ((s.RunAt t1 w).RunAt t2 (tickTime (W + (numBuckets : Int))))).2,
        e.task = t1 → e.nowNs = tickTime W)
  ∧ (∀ n : Nat, (s.next + n : Int) ≤ W + (numBuckets : Int) →
      (Scheduler.ticks env n
          ((s.RunAt t1 w).RunAt t2 (tickTime (W + (numBuckets : Int))))).2.filter
        (fun e => e.task == t2) = []
    ∧ ∃ jj ∈ (Scheduler.ticks env n
          ((s.RunAt t1 w).RunAt t2 (tickTime (W + (numBuckets : Int))))).1.buckets.getD
            (bucketIdx W) [],
        jj.task = t2 ∧ jj.RunAt = W + (numBuckets : Int)) := by
  subst hW
  have hb100 : bucketIdx (tickOf w + (numBuckets : Int)) = bucketIdx (tickOf w) :=
    bucketIdx_add_numBuckets (by omega)
  have hlen1 : (s.RunAt t1 w).buckets.length = numBuckets := by
    show (s.schedule t1 (tickOf w) 0).buckets.length = numBuckets
    rw [schedule_length]
    exact hlen
  have hRunAt2 : (s.RunAt t1 w).RunAt t2 (tickTime (tickOf w + (numBuckets : Int)))
      = (s.RunAt t1 w).schedule t2 (tickOf w + (numBuckets : Int)) 0 := by
    show (s.RunAt t1 w).schedule t2 (tickOf (tickTime (tickOf w + (numBuckets : Int)))) 0 = _
    rw [tickOf_tickTime]
  have hlen2 : ((s.RunAt t1 w).RunAt t2
      (tickTime (tickOf w + (numBuckets : Int)))).buckets.length = numBuckets := by
    rw [hRunAt2, schedule_length]
    exact hlen1
  have hone1 : oneTask ((s.RunAt t1 w).RunAt t2 (tickTime (tickOf w + (numBuckets : Int)))) t1
      { task := t1, RunAt := tickOf w, Since := spanOfTick (tickOf w - s.next), Every := 0 } := by
    rw [hRunAt2]
    exact oneTask_schedule_ne (Ne.symm hne) (schedule_oneTask hlen h1 (tickOf w) 0) _ 0
  have hone2 : oneTask ((s.RunAt t1 w).RunAt t2 (tickTime (tickOf w + (numBuckets : Int)))) t2
      { task := t2, RunAt := tickOf w + (numBuckets : Int),
        Since := spanOfTick (tickOf w + (numBuckets : Int) - s.next), Every := 0 } := by
    rw [hRunAt2]
    exact schedule_oneTask hlen1 (schedule_noTask hne h2 (tickOf w) 0) _ 0
  refine ⟨hb100, ?_, ?_, ?_⟩
  · intro n
    have hcount :
        (Scheduler.ticks env n
            ((s.RunAt t1 w).RunAt t2 (tickTime (tickOf w + (numBuckets : Int))))).2.filter
          (fun e => e.task == t1)
        = if (s.next + n : Int) ≤ tickOf w then []
          else [execOf env (tickOf w)
            { task := t1, RunAt := tickOf w, Since := spanOfTick (tickOf w - s.next),
              Every := 0 }] :=
      iter_oneshot_count env t1 _ _ hlen2 hone1 rfl hcW n
    rw [hcount]
    split <;> rfl
  · intro n e he het
    have hcount :
        (Scheduler.ticks env n
            ((s.RunAt t1 w).RunAt t2 (tickTime (tickOf w + (numBuckets : Int))))).2.filter
          (fun e => e.task == t1)
        = if (s.next + n : Int) ≤ tickOf w then []
          else [execOf env (tickOf w)
            { task := t1, RunAt := tickOf w, Since := spanOfTick (tickOf w - s.next),
              Every := 0 }] :=
      iter_oneshot_count env t1 _ _ hlen2 hone1 rfl hcW n
    have hmem : e ∈ (Scheduler.ticks env n
        ((s.RunAt t1 w).RunAt t2 (tickTime (tickOf w + (numBuckets : Int))))).2.filter
          (fun e => e.task == t1) :=
      List.mem_filter.mpr ⟨he, by simp [het]⟩
    rw [hcount] at hmem
    by_cases hc : (s.next + n : Int) ≤ tickOf w
    · rw [if_pos hc] at hmem
      exact absurd hmem (by simp)
    · rw [if_neg hc] at hmem
      rw [List.mem_singleton.mp hmem]
      rfl
  · intro n hn
    have hfut := iter_future env t2
      { task := t2, RunAt := tickOf w + (numBuckets : Int),
        Since := spanOfTick (tickOf w + (numBuckets : Int) - s.next), Every := 0 }
      n _ hlen2 hone2 hn
    refine ⟨hfut.2, ?_⟩
    have hbucket := hfut.1.2 (bucketIdx (tickOf w + (numBuckets : Int))) (bucketIdx_lt _)
    rw [if_pos rfl, hb100] at hbucket
    have hjmem :
        ({ task := t2, RunAt := tickOf w + (numBuckets : Int),
           Since := spanOfTick (tickOf w + (numBuckets : Int) - s.next), Every := 0 } : Job)
          ∈ tFilter ((Scheduler.ticks env n
              ((s.RunAt t1 w).RunAt t2
                (tickTime (tickOf w + (numBuckets : Int))))).1.buckets.getD
              (bucketIdx (tickOf w)) []) t2 := by
      rw [hbucket]
      exact List.mem_singleton.mpr rfl
    exact ⟨_, List.mem_of_mem_filter hjmem, rfl, rfl⟩

set_option maxRecDepth 100000 in
/-- Witness for C1: fresh scheduler, tasks 0 and 1, wall time 30 ms
(`W = 3`), checked after 2, 10 and 50 ticks. -/
theorem C1_witness :
    bucketIdx (3 + (numBuckets : Int)) = bucketIdx 3
  ∧ ((Scheduler.ticks alwaysTrue 10
        ((Scheduler.new.RunAt 0 30000000).RunAt 1
          (tickTime (3 + (numBuckets : Int))))).2.filter
      (fun e => e.task == 0)).length
      = (if (Scheduler.new.next + (10 : Nat) : Int) ≤ 3 then 0 else 1)
  ∧ ((Scheduler.ticks alwaysTrue 2
        ((Scheduler.new.RunAt 0 30000000).RunAt 1
          (tickTime (3 + (numBuckets : Int))))).2.filter
      (fun e => e.task == 0)).length
      = (if (Scheduler.new.next + (2 : Nat) : Int) ≤ 3 then 0 else 1)
  ∧ ({ task := 0, nowNs := 30000000, elapsedNs := 30000000, ret := true } : Exec).nowNs
      = tickTime 3
  ∧ (Scheduler.ticks alwaysTrue 50
        ((Scheduler.new.RunAt 0 30000000).RunAt 1
          (tickTime (3 + (numBuckets : Int))))).2.filter
      (fun e => e.task == 1) = []
  ∧ ∃ jj ∈ (Scheduler.ticks alwaysTrue 50
        ((Scheduler.new.RunAt 0 30000000).RunAt 1
          (tickTime (3 + (numBuckets : Int))))).1.buckets.getD (bucketIdx 3) [],
      jj.task = 1 ∧ jj.RunAt = 3 + (numBuckets : Int) :=
  ⟨(C1_run_at_due_once alwaysTrue Scheduler.new 0 1 30000000 3 (by decide) (by decide)
      (by decide) (by decide) (by decide) (by decide) (by decide)).1,
   (C1_run_at_due_once alwaysTrue Scheduler.new 0 1 30000000 3 (by decide) (by decide)
      (by decide) (by decide) (by decide) (by decide) (by decide)).2.1 10,
   (C1_run_at_due_once alwaysTrue Scheduler.new 0 1 30000000 3 (by decide) (by decide)
      (by decide) (by decide) (by decide) (by decide) (by decide)).2.1 2,
   (C1_run_at_due_once alwaysTrue Scheduler.new 0 1 30000000 3 (by decide) (by decide)
      (by decide) (by decide) (by decide) (by decide) (by decide)).2.2.1 10
     { task := 0, nowNs := 30000000, elapsedNs := 30000000, ret := true }
     (by decide) (by decide),
   ((C1_run_at_due_once alwaysTrue Scheduler.new 0 1 30000000 3 (by decide) (by decide)
      (by decide) (by decide) (by decide) (by decide) (by decide)).2.2.2 50 (by decide)).1,
   ((C1_run_at_due_once alwaysTrue Scheduler.new 0 1 30000000 3 (by decide) (by decide)
      (by decide) (by decide) (by decide) (by decide) (by decide)).2.2.2 50 (by decide)).2⟩

end Timeline
